import Mathlib

/-!
Shallow embedding of `src/main.py`, a FastAPI adapter around an external
YouTube-transcript retrieval library, together with theorems checking the
specification's claims against it.

The external library (`YouTubeTranscriptApi`) is modelled as an oracle
(`Api`): a pair of functions `fetch` and `list` returning `Except`-values,
whose error constructors mirror the Python exception classes imported in
`main.py`.  Floating-point snippet times are modelled as rationals, and
Python's `round` builtin by round-half-to-even on rationals.
-/

namespace YTA

/-- Python truthiness of an optional string (`os.environ.get` result):
`None` and the empty string are falsy. -/
def pyTruthy : Option String → Bool
  | none => false
  | some s => !(s == "")

/-- The process environment as far as `main.py` reads it:
`WEBSHARE_USERNAME` and `WEBSHARE_PASSWORD` (lines 32-33). -/
structure Env where
  webshare_username : Option String
  webshare_password : Option String
deriving DecidableEq

/-- Embedding of `WebshareProxyConfig(proxy_username=…, proxy_password=…,
retries_when_blocked=20)` as constructed in `get_api` (lines 39-46). -/
structure WebshareProxyConfig where
  proxy_username : String
  proxy_password : String
  retries_when_blocked : Nat
deriving DecidableEq

/-- Embedding of `get_api` (lines 36-47): returns the proxy configuration used for this
request, `none` meaning an unproxied `YouTubeTranscriptApi()`. -/
def get_api (env : Env) : Option WebshareProxyConfig :=
  if pyTruthy env.webshare_username && pyTruthy env.webshare_password then
    some ⟨env.webshare_username.getD "", env.webshare_password.getD "", 20⟩
  else none

/-- The JSON document returned by the root endpoint (lines 60-68), with the
HTTP status FastAPI attaches to a plain dict return. -/
structure RootDoc where
  status : Nat
  message : String
  usage : String
  exampleField : String
  docs : String
  proxy_enabled : Bool
deriving DecidableEq

/-- Embedding of `root` (lines 60-68). -/
def root (env : Env) : RootDoc :=
  { status := 200
  , message := "YouTube Transcript API is running!"
  , usage := "GET /transcript?video_id=<VIDEO_ID>"
  , exampleField := "/transcript?video_id=dQw4w9WgXcQ"
  , docs := "/docs"
  , proxy_enabled := pyTruthy env.webshare_username && pyTruthy env.webshare_password }

/-- The character class `[a-zA-Z0-9_-]` of the regex on line 53
(ASCII ranges, as Python character classes are). -/
def isIdChar (c : Char) : Bool :=
  ('a' ≤ c && c ≤ 'z') || ('A' ≤ c && c ≤ 'Z') || ('0' ≤ c && c ≤ '9') ||
    c == '_' || c == '-'

/-- Test `isPre p l` : `p` is a prefix of `l`. -/
def isPre : List Char → List Char → Bool
  | [], _ => true
  | _ :: _, [] => false
  | a :: as, b :: bs => a == b && isPre as bs

/-- Test `subAt sub l` : `sub` occurs as a contiguous sublist of `l`. -/
def subAt (sub : List Char) : List Char → Bool
  | [] => isPre sub []
  | b :: tl => isPre sub (b :: tl) || subAt sub tl

/-- Python's substring containment test `sub in s`. -/
def containsSub (s sub : String) : Bool :=
  subAt sub.toList s.toList

/-- The `([a-zA-Z0-9_-]{11})` capture group: succeeds when the next eleven
characters all lie in the class, returning them. -/
def matchTok (l : List Char) : Option (List Char) :=
  let cand := l.take 11
  if cand.length = 11 ∧ cand.all isIdChar = true then some cand else none

/-- Matching the whole regex `(?:v=|youtu\.be/)([a-zA-Z0-9_-]{11})` anchored
at the head of `l` (the two alternatives begin with distinct characters, so
Python's alternative order is immaterial). -/
def matchAt (l : List Char) : Option (List Char) :=
  if l.take 2 = ['v', '='] then matchTok (l.drop 2)
  else if l.take 9 = "youtu.be/".toList then matchTok (l.drop 9)
  else none

/-- Embedding of `re.search`: leftmost match of the regex in `l`. -/
def reSearch : List Char → Option (List Char)
  | [] => none
  | c :: tl =>
    match matchAt (c :: tl) with
    | some r => some r
    | none => reSearch tl

/-- Python's `str.isspace` character predicate (the set `str.strip()`
removes). -/
def pyIsSpace (c : Char) : Bool :=
  (9 ≤ c.toNat && c.toNat ≤ 13) || (28 ≤ c.toNat && c.toNat ≤ 32) ||
    c.toNat == 133 || c.toNat == 160 || c.toNat == 0x1680 ||
    (0x2000 ≤ c.toNat && c.toNat ≤ 0x200a) || c.toNat == 0x2028 ||
    c.toNat == 0x2029 || c.toNat == 0x202f || c.toNat == 0x205f ||
    c.toNat == 0x3000

/-- Python's `str.strip()`: drop `pyIsSpace` characters from both ends. -/
def pyStrip (s : String) : String :=
  String.mk (((s.toList.dropWhile pyIsSpace).reverse.dropWhile pyIsSpace).reverse)

/-- FastAPI's `HTTPException(status_code=…, detail=…)`. -/
structure HTTPError where
  status_code : Nat
  detail : String
deriving DecidableEq

/-- Embedding of `extract_video_id` (lines 50-57). -/
def extract_video_id (video_id_or_url : String) : Except HTTPError String :=
  if containsSub video_id_or_url "youtube.com" || containsSub video_id_or_url "youtu.be" then
    match reSearch video_id_or_url.toList with
    | some tok => .ok (String.mk tok)
    | none => .error ⟨400, "Could not extract video ID from the provided URL."⟩
  else .ok (pyStrip video_id_or_url)

/-- The exception classes `main.py` can see coming out of the external
library (lines 5-11), plus `StopIteration` (raised by `next` on an empty
iterator, line 90) and a catch-all for anything else reaching the
`except Exception` handler (line 118).  Each carries its `str(e)` text
(`str(StopIteration())` is the empty string). -/
inductive PyErr where
  | transcriptsDisabled (msg : String)
  | noTranscriptFound (msg : String)
  | videoUnavailable (msg : String)
  | requestBlocked (msg : String)
  | ipBlocked (msg : String)
  | stopIteration
  | otherError (msg : String)
deriving DecidableEq

/-- Python's `str(e)` on the modelled exceptions. -/
def pyStr : PyErr → String
  | .transcriptsDisabled m => m
  | .noTranscriptFound m => m
  | .videoUnavailable m => m
  | .requestBlocked m => m
  | .ipBlocked m => m
  | .stopIteration => ""
  | .otherError m => m

/-- One caption cue as produced by the external library: `s.text`,
`s.start`, `s.duration` (line 93).  Times are modelled as rationals. -/
structure FetchedSnippet where
  text : String
  start : ℚ
  duration : ℚ
deriving DecidableEq

/-- A fetched transcript: language metadata plus the ordered snippet
sequence (lines 92-103). -/
structure FetchedTranscript where
  language : String
  language_code : String
  is_generated : Bool
  snippets : List FetchedSnippet
deriving DecidableEq

/-- One element of the listing returned by `api.list(vid)` (line 89):
a track handle whose `.fetch()` either yields a transcript or raises. -/
structure TranscriptHandle where
  fetchResult : Except PyErr FetchedTranscript

/-- The external retrieval capability as observed by one request: the
`api.fetch(vid, languages=[language])` call and the `api.list(vid)` call.
Any behaviour of the real library is some value of this type. -/
structure Api where
  fetch : String → String → Except PyErr FetchedTranscript
  list : String → Except PyErr (List TranscriptHandle)

/-- Round-half-to-even to the nearest integer: the rounding used by
Python's builtin `round`. -/
def roundHalfEven (q : ℚ) : ℤ :=
  if q - ⌊q⌋ < 1/2 then ⌊q⌋
  else if 1/2 < q - ⌊q⌋ then ⌊q⌋ + 1
  else if ⌊q⌋ % 2 = 0 then ⌊q⌋ else ⌊q⌋ + 1

/-- Python's `round(x, 2)` (line 93), on the rational model of the float. -/
def pyRound2 (q : ℚ) : ℚ := (roundHalfEven (q * 100) : ℚ) / 100

/-- A snippet object of the response (line 93). -/
structure SnippetOut where
  text : String
  start : ℚ
  duration : ℚ
deriving DecidableEq

/-- The success JSON document (lines 98-107). -/
structure TranscriptDoc where
  success : Bool
  video_id : String
  language : String
  language_code : String
  is_generated : Bool
  total_snippets : Nat
  transcript_text : String
  snippets : List SnippetOut
deriving DecidableEq

/-- Python's `" ".join(…)` (line 96). -/
def joinWithSpace : List String → String
  | [] => ""
  | [t] => t
  | t :: u :: rest => t ++ " " ++ joinWithSpace (u :: rest)

/-- Lines 92-107: build the success document from a fetched transcript. -/
def buildResponse (vid : String) (t : FetchedTranscript) : TranscriptDoc :=
  let snippets := t.snippets.map fun s =>
    SnippetOut.mk s.text (pyRound2 s.start) (pyRound2 s.duration)
  { success := true
  , video_id := vid
  , language := t.language
  , language_code := t.language_code
  , is_generated := t.is_generated
  , total_snippets := snippets.length
  , transcript_text := joinWithSpace (t.snippets.map FetchedSnippet.text)
  , snippets := snippets }

/-- Lines 86-90: the inner `try`/`except NoTranscriptFound` block.
`next(iter(transcript_list))` on an empty listing raises `StopIteration`;
on a non-empty listing it takes the first track and calls `.fetch()`. -/
def fetchWithFallback (api : Api) (vid language : String) :
    Except PyErr FetchedTranscript :=
  match api.fetch vid language with
  | .ok t => .ok t
  | .error (.noTranscriptFound _) =>
    match api.list vid with
    | .error e => .error e
    | .ok [] => .error .stopIteration
    | .ok (h :: _) => h.fetchResult
  | .error e => .error e

/-- The fixed 429 message (lines 114-117). -/
def blockedDetail : String :=
  "YouTube has blocked this server's IP. Add WEBSHARE_USERNAME and WEBSHARE_PASSWORD env vars in Render to fix this."

/-- Lines 109-119: the ordered `except` clauses of `get_transcript`. -/
def handleError (e : PyErr) : HTTPError :=
  match e with
  | .transcriptsDisabled _ => ⟨404, "Transcripts are disabled for this video."⟩
  | .videoUnavailable _ => ⟨404, "Video is unavailable or does not exist."⟩
  | .requestBlocked _ => ⟨429, blockedDetail⟩
  | .ipBlocked _ => ⟨429, blockedDetail⟩
  | e => ⟨500, pyStr e⟩

/-- Embedding of `get_transcript` (lines 71-119), given the `Api` obtained from
`get_api()`: resolve the identifier, fetch with the one-step fallback,
and either assemble the success document or map the error. -/
def get_transcript (api : Api) (video_id language : String) :
    Except HTTPError TranscriptDoc :=
  match extract_video_id video_id with
  | .error e => .error e
  | .ok vid =>
    match fetchWithFallback api vid language with
    | .ok t => .ok (buildResponse vid t)
    | .error e => .error (handleError e)

/-- The full `/transcript` endpoint: `lib` maps a proxy configuration to
the behaviour of the external library built with it, mirroring
`api = get_api()` on line 84. -/
def transcript_endpoint (lib : Option WebshareProxyConfig → Api) (env : Env)
    (video_id language : String) : Except HTTPError TranscriptDoc :=
  get_transcript (lib (get_api env)) video_id language

/-! ### Theorems -/

/-- C8 counterexample: with `WEBSHARE_USERNAME` set to the empty string and
`WEBSHARE_PASSWORD` set to `"x"`, both environment variables are set, yet
the root endpoint reports `proxy_enabled = false`. -/
theorem C8_counterexample :
    (Env.mk (some "") (some "x")).webshare_username.isSome = true ∧
    (Env.mk (some "") (some "x")).webshare_password.isSome = true ∧
    (root (Env.mk (some "") (some "x"))).proxy_enabled = false :=
  ⟨rfl, rfl, rfl⟩

/-- C8 (amended): the root endpoint always answers with status 200, and its
`proxy_enabled` flag is true exactly when both proxy environment variables
are set to non-empty strings. -/
theorem C8_root_proxy_flag (env : Env) :
    (root env).status = 200 ∧
    ((root env).proxy_enabled = true ↔
      (∃ u, env.webshare_username = some u ∧ u ≠ "") ∧
      (∃ p, env.webshare_password = some p ∧ p ≠ "")) := by
  obtain ⟨u, p⟩ := env
  refine ⟨rfl, ?_⟩
  cases u <;> cases p <;> simp [root, pyTruthy]

/-- C10: proxying is enabled iff both `WEBSHARE_USERNAME` and
`WEBSHARE_PASSWORD` are non-empty (an empty string counts as absent, making
`get_api` unproxied and the root flag false), the root flag agrees with the
per-fetch configuration, and when enabled every `/transcript` request runs
against the library built with that proxy and `retries_when_blocked = 20`. -/
theorem C10_proxy_configuration (lib : Option WebshareProxyConfig → Api)
    (env : Env) (v l : String) :
    ((env.webshare_username = some "" ∨ env.webshare_password = some "") →
      get_api env = none ∧ (root env).proxy_enabled = false) ∧
    ((get_api env).isSome = true ↔
      (∃ u, env.webshare_username = some u ∧ u ≠ "") ∧
      (∃ p, env.webshare_password = some p ∧ p ≠ "")) ∧
    ((root env).proxy_enabled = (get_api env).isSome) ∧
    (∀ u p, env.webshare_username = some u → env.webshare_password = some p →
      u ≠ "" → p ≠ "" →
      get_api env = some ⟨u, p, 20⟩ ∧
      transcript_endpoint lib env v l =
        get_transcript (lib (some ⟨u, p, 20⟩)) v l) := by
  obtain ⟨u, p⟩ := env
  cases u with
  | none => cases p <;> simp [get_api, root, pyTruthy, transcript_endpoint]
  | some a =>
    cases p with
    | none => simp [get_api, root, pyTruthy, transcript_endpoint]
    | some b =>
      by_cases ha : a = "" <;> by_cases hb : b = "" <;>
        simp [get_api, root, pyTruthy, transcript_endpoint, ha, hb,
          Bool.and_eq_true, Bool.not_eq_true', beq_eq_false_iff_ne]

/-- C10 witness at a concrete environment. -/
theorem C10_proxy_configuration_witness :
    get_api (Env.mk (some "alice") (some "pw")) = some ⟨"alice", "pw", 20⟩ :=
  ((C10_proxy_configuration (fun _ => Api.mk (fun _ _ => .error .stopIteration)
      (fun _ => .error .stopIteration)) (Env.mk (some "alice") (some "pw"))
      "v" "en").2.2.2 "alice" "pw" rfl rfl (by decide) (by decide)).1

/-- A sample transcript used to instantiate oracle behaviours. -/
def sampleTranscript : FetchedTranscript :=
  { language := "German"
  , language_code := "de"
  , is_generated := true
  , snippets := [⟨"Hallo", 123456/100000, 5/2⟩, ⟨"Welt", 3, 41/10⟩] }

/-- An oracle with constant answers, for concrete instantiations. -/
def constApi (f : Except PyErr FetchedTranscript)
    (l : Except PyErr (List TranscriptHandle)) : Api :=
  ⟨fun _ _ => f, fun _ => l⟩

/-- C1 counterexample: the requested-language fetch signals
transcript-not-found and the listing yields one track, but fetching that
first track fails (video became unavailable), so the response is a 404
error, not a success. -/
theorem C1_counterexample :
    (constApi (.error (.noTranscriptFound "nf"))
        (.ok [⟨.error (.videoUnavailable "gone")⟩])).fetch "abcdefghikl" "en"
      = .error (.noTranscriptFound "nf") ∧
    (constApi (.error (.noTranscriptFound "nf"))
        (.ok [⟨.error (.videoUnavailable "gone")⟩])).list "abcdefghikl"
      = .ok [⟨.error (.videoUnavailable "gone")⟩] ∧
    get_transcript
        (constApi (.error (.noTranscriptFound "nf"))
          (.ok [⟨.error (.videoUnavailable "gone")⟩])) "abcdefghikl" "en"
      = .error ⟨404, "Video is unavailable or does not exist."⟩ :=
  ⟨rfl, rfl, rfl⟩

/-- C1 (amended): when the fetch in the requested language signals
transcript-not-found, the handler lists all tracks and fetches exactly the
first one yielded (no ranking); if at least one track exists and fetching
it succeeds, the response is the success document built from that first
track. -/
theorem C1_fallback_first_track (api : Api) (input vid language m : String)
    (h0 : TranscriptHandle) (rest : List TranscriptHandle)
    (tr : FetchedTranscript)
    (hvid : extract_video_id input = .ok vid)
    (hf : api.fetch vid language = .error (.noTranscriptFound m))
    (hl : api.list vid = .ok (h0 :: rest))
    (hh : h0.fetchResult = .ok tr) :
    get_transcript api input language = .ok (buildResponse vid tr) := by
  simp [get_transcript, hvid, fetchWithFallback, hf, hl, hh]

/-- C1 witness: the amended theorem at a concrete oracle. -/
theorem C1_fallback_first_track_witness :
    get_transcript (constApi (.error (.noTranscriptFound "nf"))
        (.ok [⟨.ok sampleTranscript⟩, ⟨.error .stopIteration⟩]))
        "abcdefghikl" "en"
      = .ok (buildResponse "abcdefghikl" sampleTranscript) :=
  C1_fallback_first_track _ "abcdefghikl" "abcdefghikl" "en" "nf"
    ⟨.ok sampleTranscript⟩ [⟨.error .stopIteration⟩] sampleTranscript
    rfl rfl rfl rfl

/-- C2: each failure kind escaping the fetch-with-fallback block is mapped
to exactly one HTTP status and message: transcripts-disabled to 404 with
its fixed message, video-unavailable to 404 with its fixed message,
request- or IP-blocked to 429 with the fixed proxy-advice message, and any
other failure to 500 with that failure's own `str(e)` text verbatim. -/
theorem C2_error_mapping (api : Api) (input vid language : String) (e : PyErr)
    (hvid : extract_video_id input = .ok vid)
    (he : fetchWithFallback api vid language = .error e) :
    (∀ m, e = .transcriptsDisabled m →
      get_transcript api input language =
        .error ⟨404, "Transcripts are disabled for this video."⟩) ∧
    (∀ m, e = .videoUnavailable m →
      get_transcript api input language =
        .error ⟨404, "Video is unavailable or does not exist."⟩) ∧
    (∀ m, e = .requestBlocked m ∨ e = .ipBlocked m →
      get_transcript api input language = .error ⟨429, blockedDetail⟩) ∧
    ((∀ m, e ≠ .transcriptsDisabled m ∧ e ≠ .videoUnavailable m ∧
        e ≠ .requestBlocked m ∧ e ≠ .ipBlocked m) →
      get_transcript api input language = .error ⟨500, pyStr e⟩) := by
  have hbase : get_transcript api input language = .error (handleError e) := by
    simp [get_transcript, hvid, he]
  refine ⟨?_, ?_, ?_, ?_⟩
  · rintro m rfl; simpa [handleError] using hbase
  · rintro m rfl; simpa [handleError] using hbase
  · rintro m (rfl | rfl) <;> simpa [handleError] using hbase
  · intro hothers
    cases e with
    | transcriptsDisabled m => exact absurd rfl (hothers m).1
    | videoUnavailable m => exact absurd rfl (hothers m).2.1
    | requestBlocked m => exact absurd rfl (hothers m).2.2.1
    | ipBlocked m => exact absurd rfl (hothers m).2.2.2
    | noTranscriptFound m => simpa [handleError, pyStr] using hbase
    | stopIteration => simpa [handleError, pyStr] using hbase
    | otherError m => simpa [handleError, pyStr] using hbase

/-- C2 witness: the mapping at a concrete transcripts-disabled failure. -/
theorem C2_error_mapping_witness :
    get_transcript (constApi (.error (.transcriptsDisabled "x"))
        (.error .stopIteration)) "abcdefghikl" "en"
      = .error ⟨404, "Transcripts are disabled for this video."⟩ :=
  (C2_error_mapping (constApi (.error (.transcriptsDisabled "x"))
      (.error .stopIteration)) "abcdefghikl" "abcdefghikl" "en"
      (.transcriptsDisabled "x") rfl rfl).1 "x" rfl

/-- C9: when the requested-language fetch signals transcript-not-found and
the listing succeeds with zero tracks, `next(iter(...))` raises
`StopIteration`, which falls into the catch-all handler: the endpoint
returns 500 with the empty `str(StopIteration())` detail, not 404. -/
theorem C9_empty_listing (api : Api) (input vid language m : String)
    (hvid : extract_video_id input = .ok vid)
    (hf : api.fetch vid language = .error (.noTranscriptFound m))
    (hl : api.list vid = .ok []) :
    get_transcript api input language = .error ⟨500, ""⟩ ∧
    (∀ d : HTTPError, get_transcript api input language = .error d →
      d.status_code ≠ 404) := by
  have hmain : get_transcript api input language = .error ⟨500, ""⟩ := by
    simp [get_transcript, hvid, fetchWithFallback, hf, hl, handleError, pyStr]
  refine ⟨hmain, ?_⟩
  intro d hd
  rw [hmain] at hd
  cases hd
  decide

/-- C9 witness: the empty-listing behaviour at a concrete oracle. -/
theorem C9_empty_listing_witness :
    get_transcript (constApi (.error (.noTranscriptFound "nf")) (.ok []))
        "abcdefghikl" "en" = .error ⟨500, ""⟩ :=
  (C9_empty_listing (constApi (.error (.noTranscriptFound "nf")) (.ok []))
    "abcdefghikl" "abcdefghikl" "en" "nf" rfl rfl rfl).1

/-- Joining prepends separators pairwise, so consing a joined head
distributes over string append. -/
theorem joinWithSpace_cons_append (acc b : String) (tl : List String) :
    joinWithSpace ((acc ++ " " ++ b) :: tl) =
      acc ++ " " ++ joinWithSpace (b :: tl) := by
  cases tl with
  | nil => rfl
  | cons c tl => simp [joinWithSpace, String.append_assoc]

/-- The worker of `String.intercalate` agrees with `joinWithSpace`. -/
theorem intercalate_go_eq_joinWithSpace (l : List String) :
    ∀ acc, String.intercalate.go acc " " l = joinWithSpace (acc :: l) := by
  induction l with
  | nil => intro acc; rfl
  | cons b tl ih =>
    intro acc
    calc String.intercalate.go acc " " (b :: tl)
        = String.intercalate.go (acc ++ " " ++ b) " " tl := rfl
      _ = joinWithSpace ((acc ++ " " ++ b) :: tl) := ih _
      _ = acc ++ " " ++ joinWithSpace (b :: tl) := joinWithSpace_cons_append ..
      _ = joinWithSpace (acc :: b :: tl) := rfl

/-- Python's `" ".join` is `String.intercalate " "`. -/
theorem joinWithSpace_eq_intercalate (l : List String) :
    joinWithSpace l = String.intercalate " " l := by
  cases l with
  | nil => rfl
  | cons a tl => exact (intercalate_go_eq_joinWithSpace tl a).symm

/-- C4: in every success document the transcript text is the snippet texts
joined, in order, by exactly one space, and those texts are exactly the
fetched snippet texts, unmodified. -/
theorem C4_transcript_text (api : Api) (input language : String)
    (doc : TranscriptDoc)
    (h : get_transcript api input language = .ok doc) :
    doc.transcript_text =
      String.intercalate " " (doc.snippets.map SnippetOut.text) ∧
    ∃ vid t, extract_video_id input = .ok vid ∧
      fetchWithFallback api vid language = .ok t ∧
      doc.snippets.map SnippetOut.text = t.snippets.map FetchedSnippet.text := by
  unfold get_transcript at h
  cases hv : extract_video_id input with
  | error e => simp [hv] at h
  | ok vid =>
    cases hf : fetchWithFallback api vid language with
    | error e => simp [hv, hf] at h
    | ok t =>
      simp [hv, hf] at h
      subst h
      have htexts : (buildResponse vid t).snippets.map SnippetOut.text =
          t.snippets.map FetchedSnippet.text := by
        simp [buildResponse, List.map_map, Function.comp_def]
      refine ⟨?_, vid, t, rfl, hf, htexts⟩
      rw [htexts]
      simpa [buildResponse] using
        joinWithSpace_eq_intercalate (t.snippets.map FetchedSnippet.text)

/-- C4 witness: the join property at a concrete successful request. -/
theorem C4_transcript_text_witness :
    (buildResponse "abcdefghikl" sampleTranscript).transcript_text =
      String.intercalate " "
        ((buildResponse "abcdefghikl" sampleTranscript).snippets.map
          SnippetOut.text) :=
  (C4_transcript_text (constApi (.ok sampleTranscript) (.error .stopIteration))
    "abcdefghikl" "en" (buildResponse "abcdefghikl" sampleTranscript) rfl).1

/-- Predicate: `y` is `x` rounded to two decimal places: `y` is an integer number of
hundredths, at distance at most half a hundredth from `x` (the two-sided
distance bound admits both half-up and banker's tie-breaking and nothing
else). -/
def IsRound2 (y x : ℚ) : Prop :=
  (∃ n : ℤ, y = n / 100) ∧ |y - x| ≤ 1 / 200

/-- Round-half-to-even lands within half a unit of its argument. -/
theorem roundHalfEven_close (q : ℚ) : |(roundHalfEven q : ℚ) - q| ≤ 1 / 2 := by
  have h0 : (⌊q⌋ : ℚ) ≤ q := Int.floor_le q
  have h1 : q < ⌊q⌋ + 1 := Int.lt_floor_add_one q
  unfold roundHalfEven
  split_ifs with ha hb hc
  · rw [abs_sub_comm, abs_of_nonneg (by linarith)]
    linarith
  · push_cast
    rw [abs_of_nonneg (by linarith)]
    linarith
  · have : q - ⌊q⌋ = 1 / 2 := le_antisymm (not_lt.mp hb) (not_lt.mp ha)
    rw [abs_sub_comm, abs_of_nonneg (by linarith)]
    linarith
  · have : q - ⌊q⌋ = 1 / 2 := le_antisymm (not_lt.mp hb) (not_lt.mp ha)
    push_cast
    rw [abs_of_nonneg (by linarith)]
    linarith

/-- Python's `round(x, 2)` produces a two-decimal rounding of `x`. -/
theorem pyRound2_isRound2 (q : ℚ) : IsRound2 (pyRound2 q) q := by
  refine ⟨⟨roundHalfEven (q * 100), rfl⟩, ?_⟩
  have h := roundHalfEven_close (q * 100)
  have heq : pyRound2 q - q = ((roundHalfEven (q * 100) : ℚ) - q * 100) / 100 := by
    unfold pyRound2; ring
  rw [heq, abs_div, abs_of_pos (by norm_num : (0 : ℚ) < 100)]
  linarith

/-- C5: every emitted snippet carries the fetched text unmodified, and
start and duration rounded to two decimal places (nearest hundredth, with
half-up or banker's tie-breaking both admissible). -/
theorem C5_snippet_rounding (api : Api) (input language : String)
    (doc : TranscriptDoc)
    (h : get_transcript api input language = .ok doc) :
    ∃ vid t, extract_video_id input = .ok vid ∧
      fetchWithFallback api vid language = .ok t ∧
      doc.snippets.length = t.snippets.length ∧
      ∀ i (hd : i < doc.snippets.length) (ht : i < t.snippets.length),
        (doc.snippets.get ⟨i, hd⟩).text = (t.snippets.get ⟨i, ht⟩).text ∧
        IsRound2 (doc.snippets.get ⟨i, hd⟩).start
          (t.snippets.get ⟨i, ht⟩).start ∧
        IsRound2 (doc.snippets.get ⟨i, hd⟩).duration
          (t.snippets.get ⟨i, ht⟩).duration := by
  unfold get_transcript at h
  cases hv : extract_video_id input with
  | error e => simp [hv] at h
  | ok vid =>
    cases hf : fetchWithFallback api vid language with
    | error e => simp [hv, hf] at h
    | ok t =>
      simp [hv, hf] at h
      subst h
      refine ⟨vid, t, rfl, hf, by simp [buildResponse], ?_⟩
      intro i hd ht
      have hget : (buildResponse vid t).snippets.get ⟨i, hd⟩ =
          SnippetOut.mk (t.snippets.get ⟨i, ht⟩).text
            (pyRound2 (t.snippets.get ⟨i, ht⟩).start)
            (pyRound2 (t.snippets.get ⟨i, ht⟩).duration) := by
        simp [buildResponse, List.getElem_map]
      rw [hget]
      exact ⟨rfl, pyRound2_isRound2 _, pyRound2_isRound2 _⟩

/-- C5 witness: the rounding property at a concrete successful request. -/
theorem C5_snippet_rounding_witness :
    ∃ vid t, extract_video_id "abcdefghikl" = .ok vid ∧
      fetchWithFallback (constApi (.ok sampleTranscript) (.error .stopIteration))
        vid "en" = .ok t ∧
      (buildResponse "abcdefghikl" sampleTranscript).snippets.length =
        t.snippets.length ∧
      ∀ i (hd : i < (buildResponse "abcdefghikl" sampleTranscript).snippets.length)
        (ht : i < t.snippets.length),
        ((buildResponse "abcdefghikl" sampleTranscript).snippets.get ⟨i, hd⟩).text =
          (t.snippets.get ⟨i, ht⟩).text ∧
        IsRound2 (((buildResponse "abcdefghikl" sampleTranscript).snippets.get
            ⟨i, hd⟩).start) ((t.snippets.get ⟨i, ht⟩).start) ∧
        IsRound2 (((buildResponse "abcdefghikl" sampleTranscript).snippets.get
            ⟨i, hd⟩).duration) ((t.snippets.get ⟨i, ht⟩).duration) :=
  C5_snippet_rounding (constApi (.ok sampleTranscript) (.error .stopIteration))
    "abcdefghikl" "en" (buildResponse "abcdefghikl" sampleTranscript) rfl

/-- Declarative reading of one regex match anchored at the head of `l`:
`tok` is an 11-character token over `[a-zA-Z0-9_-]` standing immediately
after a leading `v=` or a leading `youtu.be/`. -/
def TokenFrom (l tok : List Char) : Prop :=
  tok.length = 11 ∧ tok.all isIdChar = true ∧
    ((l.take 2 = ['v', '='] ∧ (l.drop 2).take 11 = tok) ∨
     (l.take 9 = "youtu.be/".toList ∧ (l.drop 9).take 11 = tok))

/-- Predicate: `tok` stands immediately after a `v=` or `youtu.be/` beginning at
position `i` of `l`. -/
def TokenAt (l : List Char) (i : Nat) (tok : List Char) : Prop :=
  TokenFrom (l.drop i) tok

instance (l tok : List Char) : Decidable (TokenFrom l tok) := by
  unfold TokenFrom; infer_instance

instance (l : List Char) (i : Nat) (tok : List Char) :
    Decidable (TokenAt l i tok) := by
  unfold TokenAt; infer_instance

/-- The capture-group matcher characterised. -/
theorem matchTok_eq_some (l tok : List Char) :
    matchTok l = some tok ↔
      tok.length = 11 ∧ tok.all isIdChar = true ∧ l.take 11 = tok := by
  simp only [matchTok]
  split_ifs with h
  · constructor
    · rintro ⟨⟩
      exact ⟨h.1, h.2, rfl⟩
    · rintro ⟨-, -, h3⟩
      rw [h3]
  · constructor
    · rintro ⟨⟩
    · rintro ⟨h1, h2, h3⟩
      exact absurd ⟨h3 ▸ h1, h3 ▸ h2⟩ h

/-- The anchored regex matcher agrees with the declarative reading. -/
theorem matchAt_eq_some (l tok : List Char) :
    matchAt l = some tok ↔ TokenFrom l tok := by
  unfold matchAt TokenFrom
  split_ifs with h1 h2
  · rw [matchTok_eq_some]
    constructor
    · rintro ⟨a, b, c⟩
      exact ⟨a, b, Or.inl ⟨h1, c⟩⟩
    · rintro ⟨a, b, ⟨-, c⟩ | ⟨h9, -⟩⟩
      · exact ⟨a, b, c⟩
      · exfalso
        have h2' : l.take 2 = ['y', 'o'] := by
          have : (l.take 9).take 2 = l.take 2 := by
            rw [List.take_take]
            norm_num
          rw [← this, h9]
          rfl
        rw [h1] at h2'
        cases h2'
  · rw [matchTok_eq_some]
    constructor
    · rintro ⟨a, b, c⟩
      exact ⟨a, b, Or.inr ⟨h2, c⟩⟩
    · rintro ⟨a, b, ⟨hv, -⟩ | ⟨-, c⟩⟩
      · exact absurd hv h1
      · exact ⟨a, b, c⟩
  · constructor
    · rintro ⟨⟩
    · rintro ⟨-, -, ⟨hv, -⟩ | ⟨h9, -⟩⟩
      · exact absurd hv h1
      · exact absurd h9 h2

/-- No token stands in the empty list. -/
theorem not_tokenFrom_nil (tok : List Char) : ¬ TokenFrom [] tok := by
  rintro ⟨-, -, ⟨h, -⟩ | ⟨h, -⟩⟩ <;> cases h

/-- Search `reSearch` fails exactly when no position of `l` carries a token. -/
theorem reSearch_eq_none (l : List Char) :
    reSearch l = none ↔ ∀ i t, ¬ TokenAt l i t := by
  induction l with
  | nil =>
    simp only [reSearch, true_iff]
    intro i t h
    exact not_tokenFrom_nil t (by simpa [TokenAt] using h)
  | cons c tl ih =>
    constructor
    · intro h i t
      unfold reSearch at h
      cases hm : matchAt (c :: tl) with
      | some r => rw [hm] at h; cases h
      | none =>
        rw [hm] at h
        cases i with
        | zero =>
          intro ht
          have : matchAt (c :: tl) = some t :=
            (matchAt_eq_some _ t).mpr (by simpa [TokenAt] using ht)
          rw [hm] at this; cases this
        | succ j =>
          intro ht
          exact (ih.mp h) j t (by simpa [TokenAt] using ht)
    · intro h
      unfold reSearch
      cases hm : matchAt (c :: tl) with
      | some r =>
        exact absurd (by simpa [TokenAt] using (matchAt_eq_some _ r).mp hm)
          (h 0 r)
      | none =>
        exact ih.mpr fun j t ht => h (j + 1) t (by simpa [TokenAt] using ht)

/-- Search `reSearch` succeeds exactly on the leftmost token, mirroring
`re.search`'s leftmost-match rule. -/
theorem reSearch_eq_some (l tok : List Char) :
    reSearch l = some tok ↔
      ∃ i, TokenAt l i tok ∧ ∀ j t, j < i → ¬ TokenAt l j t := by
  induction l with
  | nil =>
    constructor
    · intro h
      simp [reSearch] at h
    · rintro ⟨i, hi, -⟩
      exact absurd (show TokenFrom [] tok by simpa [TokenAt] using hi)
        (not_tokenFrom_nil tok)
  | cons c tl ih =>
    unfold reSearch
    cases hm : matchAt (c :: tl) with
    | some r =>
      dsimp only
      have hr : TokenAt (c :: tl) 0 r := by
        simpa [TokenAt] using (matchAt_eq_some _ r).mp hm
      constructor
      · rintro ⟨⟩
        exact ⟨0, hr, fun j t hj => absurd hj (Nat.not_lt_zero j)⟩
      · rintro ⟨i, hi, hmin⟩
        cases i with
        | zero =>
          have : matchAt (c :: tl) = some tok :=
            (matchAt_eq_some _ tok).mpr (by simpa [TokenAt] using hi)
          rw [hm] at this
          exact this
        | succ j => exact absurd hr (hmin 0 r (Nat.succ_pos j))
    | none =>
      dsimp only
      have hnone : ∀ t, ¬ TokenAt (c :: tl) 0 t := by
        intro t ht
        have : matchAt (c :: tl) = some t :=
          (matchAt_eq_some _ t).mpr (by simpa [TokenAt] using ht)
        rw [hm] at this; cases this
      rw [ih]
      constructor
      · rintro ⟨i, hi, hmin⟩
        refine ⟨i + 1, by simpa [TokenAt] using hi, ?_⟩
        intro j t hj
        cases j with
        | zero => exact hnone t
        | succ j' =>
          intro ht
          exact hmin j' t (Nat.lt_of_succ_lt_succ hj)
            (by simpa [TokenAt] using ht)
      · rintro ⟨i, hi, hmin⟩
        cases i with
        | zero => exact absurd hi (hnone tok)
        | succ i' =>
          refine ⟨i', by simpa [TokenAt] using hi, ?_⟩
          intro j t hj ht
          exact hmin (j + 1) t (Nat.succ_lt_succ hj)
            (by simpa [TokenAt] using ht)

/-- C3: on any input containing `youtube.com` or `youtu.be`, if an
11-character `[a-zA-Z0-9_-]` token stands immediately after some `v=` or
`youtu.be/`, the resolver returns the leftmost such token; if none does,
it fails with 400 and the fixed message. -/
theorem C3_url_resolution (s : String)
    (hurl : containsSub s "youtube.com" = true ∨
      containsSub s "youtu.be" = true) :
    (∀ i tok, TokenAt s.toList i tok →
      (∀ j t, j < i → ¬ TokenAt s.toList j t) →
      extract_video_id s = .ok (String.mk tok)) ∧
    ((∀ i tok, ¬ TokenAt s.toList i tok) →
      extract_video_id s =
        .error ⟨400, "Could not extract video ID from the provided URL."⟩) := by
  have hb : (containsSub s "youtube.com" || containsSub s "youtu.be") = true := by
    rcases hurl with h | h <;> simp [h]
  constructor
  · intro i tok hi hmin
    have hsome : reSearch s.data = some tok :=
      (reSearch_eq_some s.toList tok).mpr ⟨i, hi, hmin⟩
    simp [extract_video_id, hb, hsome]
  · intro hnone
    have hn : reSearch s.data = none :=
      (reSearch_eq_none s.toList).mpr hnone
    simp [extract_video_id, hb, hn]

/-- C3 witness: extraction from a concrete short URL, with the token at
position 0 (vacuously leftmost). -/
theorem C3_url_resolution_witness :
    extract_video_id "youtu.be/abcdefghikl" = .ok "abcdefghikl" := by
  have h := (C3_url_resolution "youtu.be/abcdefghikl" (Or.inr (by decide))).1
    0 "abcdefghikl".toList (by decide)
    (fun j t hj => absurd hj (Nat.not_lt_zero j))
  exact h

/-- C7 counterexample: the resolver accepts the raw input `"abc"` and
returns it unchanged, a resolved VideoReference of length 3, not 11. -/
theorem C7_counterexample :
    extract_video_id "abc" = .ok "abc" ∧ ("abc" : String).length ≠ 11 :=
  ⟨rfl, by decide⟩

/-- C7 (amended): every VideoReference resolved from a URL-like input (one
containing `youtube.com` or `youtu.be`) is an 11-character token over
alphanumerics, `-` and `_`; raw-ID inputs are returned trimmed with no
format validation. -/
theorem C7_url_reference_invariant (s r : String)
    (hurl : containsSub s "youtube.com" = true ∨
      containsSub s "youtu.be" = true)
    (h : extract_video_id s = .ok r) :
    r.length = 11 ∧ r.toList.all isIdChar = true := by
  have hb : (containsSub s "youtube.com" || containsSub s "youtu.be") = true := by
    rcases hurl with h' | h' <;> simp [h']
  unfold extract_video_id at h
  rw [hb] at h
  simp only [if_true] at h
  cases hr : reSearch s.toList with
  | none => rw [hr] at h; cases h
  | some tok =>
    rw [hr] at h
    cases h
    obtain ⟨i, hi, -⟩ := (reSearch_eq_some s.toList tok).mp hr
    obtain ⟨hlen, hall, -⟩ := hi
    constructor
    · simpa [String.length] using hlen
    · simpa using hall

/-- C7 witness: the amended invariant at a concrete URL. -/
theorem C7_url_reference_invariant_witness :
    ("dQw4w9WgXcQ" : String).length = 11 ∧
    ("dQw4w9WgXcQ" : String).toList.all isIdChar = true :=
  C7_url_reference_invariant "https://www.youtube.com/watch?v=dQw4w9WgXcQ"
    "dQw4w9WgXcQ" (Or.inl (by decide)) rfl

/-- The head of a `dropWhile` result never satisfies the predicate. -/
theorem head?_dropWhile_false (p : Char → Bool) (l : List Char) (c : Char)
    (h : (l.dropWhile p).head? = some c) : p c = false := by
  have hne : l.dropWhile p ≠ [] := by
    intro he; rw [he] at h; cases h
  have hc : (l.dropWhile p).head hne = c := by
    rw [List.head?_eq_head hne] at h
    exact Option.some.inj h
  rw [← hc]
  exact List.head_dropWhile_not p l hne

/-- A non-empty head survives appending on the right. -/
theorem head?_append_some (l l' : List Char) (c : Char)
    (h : l.head? = some c) : (l ++ l').head? = some c := by
  cases l with
  | nil => cases h
  | cons a tl => simpa using h

/-- C6: any input containing neither `youtube.com` nor `youtu.be` resolves
without failure to the input with leading and trailing whitespace removed
and nothing else changed: the result is an infix of the input, what was
removed on each side is all whitespace, and the result neither starts nor
ends with whitespace. -/
theorem C6_raw_id (s : String)
    (h1 : containsSub s "youtube.com" = false)
    (h2 : containsSub s "youtu.be" = false) :
    ∃ r : String, extract_video_id s = .ok r ∧
      (∃ pre post, s.toList = pre ++ r.toList ++ post ∧
        pre.all pyIsSpace = true ∧ post.all pyIsSpace = true) ∧
      (∀ c, r.toList.head? = some c → pyIsSpace c = false) ∧
      (∀ c, r.toList.getLast? = some c → pyIsSpace c = false) := by
  have hok : extract_video_id s = .ok (pyStrip s) := by
    simp [extract_video_id, h1, h2]
  refine ⟨pyStrip s, hok, ?_, ?_, ?_⟩
  · refine ⟨s.toList.takeWhile pyIsSpace,
      ((s.toList.dropWhile pyIsSpace).reverse.takeWhile pyIsSpace).reverse,
      ?_, ?_, ?_⟩
    · have ha : s.toList.takeWhile pyIsSpace ++ s.toList.dropWhile pyIsSpace
          = s.toList := List.takeWhile_append_dropWhile pyIsSpace s.toList
      have hb : (s.toList.dropWhile pyIsSpace).reverse.takeWhile pyIsSpace ++
          (s.toList.dropWhile pyIsSpace).reverse.dropWhile pyIsSpace =
          (s.toList.dropWhile pyIsSpace).reverse :=
        List.takeWhile_append_dropWhile pyIsSpace _
      have hsplit : s.toList.dropWhile pyIsSpace =
          ((s.toList.dropWhile pyIsSpace).reverse.dropWhile pyIsSpace).reverse
            ++ ((s.toList.dropWhile pyIsSpace).reverse.takeWhile pyIsSpace).reverse := by
        have h3 := congrArg List.reverse hb
        rw [List.reverse_append, List.reverse_reverse] at h3
        exact h3.symm
      calc s.toList = s.toList.takeWhile pyIsSpace ++
            s.toList.dropWhile pyIsSpace := ha.symm
        _ = s.toList.takeWhile pyIsSpace ++
            (((s.toList.dropWhile pyIsSpace).reverse.dropWhile pyIsSpace).reverse
              ++ ((s.toList.dropWhile pyIsSpace).reverse.takeWhile pyIsSpace).reverse) := by
            rw [← hsplit]
        _ = s.toList.takeWhile pyIsSpace ++ (pyStrip s).toList ++
            ((s.toList.dropWhile pyIsSpace).reverse.takeWhile pyIsSpace).reverse := by
            rw [List.append_assoc]
            rfl
    · rw [List.all_eq_true]
      intro x hx
      exact List.mem_takeWhile_imp hx
    · rw [List.all_eq_true]
      intro x hx
      exact List.mem_takeWhile_imp (List.mem_reverse.mp hx)
  · intro c hc
    have hc' : (s.toList.dropWhile pyIsSpace).head? = some c := by
      have hsplit : s.toList.dropWhile pyIsSpace =
          (pyStrip s).toList
            ++ ((s.toList.dropWhile pyIsSpace).reverse.takeWhile pyIsSpace).reverse := by
        have hb := List.takeWhile_append_dropWhile pyIsSpace
          (s.toList.dropWhile pyIsSpace).reverse
        have h3 := congrArg List.reverse hb
        rw [List.reverse_append, List.reverse_reverse] at h3
        exact h3.symm
      rw [hsplit]
      exact head?_append_some _ _ c hc
    exact head?_dropWhile_false pyIsSpace s.toList c hc'
  · intro c hc
    have hc' : ((s.toList.dropWhile pyIsSpace).reverse.dropWhile pyIsSpace).head?
        = some c := by
      have : (pyStrip s).toList.getLast? =
          ((s.toList.dropWhile pyIsSpace).reverse.dropWhile pyIsSpace).head? :=
        List.getLast?_reverse _
      rw [this] at hc
      exact hc
    exact head?_dropWhile_false pyIsSpace _ c hc'

/-- C6 witness: trimming at a concrete raw-ID input with tab and spaces. -/
theorem C6_raw_id_witness :
    ∃ r : String, extract_video_id "  abc123XYZ_-\t" = .ok r ∧
      (∃ pre post, ("  abc123XYZ_-\t" : String).toList =
        pre ++ r.toList ++ post ∧
        pre.all pyIsSpace = true ∧ post.all pyIsSpace = true) ∧
      (∀ c, r.toList.head? = some c → pyIsSpace c = false) ∧
      (∀ c, r.toList.getLast? = some c → pyIsSpace c = false) :=
  C6_raw_id "  abc123XYZ_-\t" (by decide) (by decide)

end YTA
